import Mathlib

/-!
Shallow embedding of the qianka-cache repository
(`qianka/cache/cache.py` and `qianka/cache/redis_cache.py`).

The backing redis clients, the consistent-hash ring (`hash_ring.py`,
imported by the source but not part of these two files) and the pluggable
marshal module are external collaborators; they enter the embedding as
function parameters (`keyToUrl` for `ring.get_node`, `store`/response
functions for the redis clients, `dumps`/`loads` for the codec).
State-changing redis calls are embedded as command traces plus abstract
per-command response functions; pure helpers are embedded as Lean
functions.
-/

deriving instance DecidableEq for Except

/-- Python runtime values relevant to the cache layer.  Strings and bytes
are carried as lists of character/byte codes. -/
inductive PyVal : Type where
  | intV (n : Int)
  | strV (cs : List Nat)
  | bytesV (bs : List Nat)
  | boolV (b : Bool)
  | noneV
  deriving DecidableEq

/-- Decimal digit test on a byte code (ASCII '0'..'9'). -/
def isDigitCode (c : Nat) : Bool := 48 ≤ c && c ≤ 57

/-- Python `int()` on an unsigned run of character codes: nonempty, all
decimal digits, read in base 10. -/
def parseNatCodes (cs : List Nat) : Option Nat :=
  if cs ≠ [] ∧ cs.all isDigitCode then
    some (cs.foldl (fun a c => a * 10 + (c - 48)) 0)
  else none

/-- Python `int()` applied to string/bytes contents: an optional sign
followed by a nonempty digit run. -/
def parseIntCodes (cs : List Nat) : Option Int :=
  match cs with
  | [] => none
  | c :: rest =>
    if c = 45 then (parseNatCodes rest).map (fun m => -(m : Int))
    else if c = 43 then (parseNatCodes rest).map (fun m => (m : Int))
    else (parseNatCodes cs).map (fun m => (m : Int))

/-- Python `int(value)` with `ValueError`/`TypeError` mapped to `none`:
ints pass through, bools coerce, strings/bytes parse, anything else
fails.  This is the `int(value)` attempt in `RedisCache.load_object`. -/
def pyToInt : PyVal → Option Int
  | .intV n => some n
  | .boolV b => some (if b then 1 else 0)
  | .strV cs => parseIntCodes cs
  | .bytesV bs => parseIntCodes bs
  | .noneV => none

/-- ASCII codes of `str n` for a natural number (most significant digit
first; `0` renders as "0"). -/
def natDecimalCodes (n : Nat) : List Nat :=
  if n = 0 then [48] else ((Nat.digits 10 n).map (fun d => d + 48)).reverse

/-- ASCII codes of Python `str(value).encode('ascii')` for an int. -/
def intDecimalCodes (n : Int) : List Nat :=
  if n < 0 then 45 :: natDecimalCodes n.natAbs else natDecimalCodes n.natAbs

/-- `RedisCache.dump_object`: an int is first turned into the ASCII bytes
of its base-10 text, everything else is handed to the marshal module
unchanged. -/
def dumpObject {B : Type} (dumps : PyVal → B) (value : PyVal) : B :=
  match value with
  | .intV n => dumps (.bytesV (intDecimalCodes n))
  | v => dumps v

/-- `RedisCache.load_object`: `None` stays `None`; otherwise the marshal
module decodes the payload and the result is opportunistically re-parsed
as an int. -/
def loadObject {B : Type} (loads : B → PyVal) (value : Option B) : Option PyVal :=
  match value with
  | none => none
  | some b =>
    let v := loads b
    match pyToInt v with
    | some n => some (.intV n)
    | none => some v

/-- `RedisCache._get_key`: physical key = key prefix + logical key. -/
def getKey (kp k : String) : String := kp ++ k

/-- One step of the `defaultdict(list)` loop in `RedisCache._group_by_url`:
append `x` to the bucket of `u`, creating the bucket at the end on first
use (Python dict insertion order). -/
def bucketAdd {α : Type} (d : List (String × List α)) (u : String) (x : α) :
    List (String × List α) :=
  match d with
  | [] => [(u, [x])]
  | (u', xs) :: rest =>
    if u' = u then (u', xs ++ [x]) :: rest else (u', xs) :: bucketAdd rest u x

/-- `RedisCache._group_by_url`: enumerate the iterable, compute
`(pos, func_handle_arg(arg), func_get_url(arg))` triples, and group the
`(pos, arg)` pairs by url. -/
def groupByUrl {α β : Type} (iterable : List α) (handleArg : α → β)
    (getUrl : α → String) : List (String × List (Nat × β)) :=
  (iterable.enum.map (fun pa => (pa.1, handleArg pa.2, getUrl pa.2))).foldl
    (fun d t => bucketAdd d t.2.2 (t.1, t.2.1)) []

/-- Per-node `client.mget(keys)`: the node's stored value (or `None`) for
each physical key, in order. -/
def mget {B : Type} (store : String → String → Option B) (url : String)
    (ks : List String) : List (Option B) := ks.map (store url)

/-- `RedisCache.get_many`, parametrized by the post-processing `post`
applied to every `mget` answer (`load_object` on the default path, the
identity for `raw=True`): group the physical keys by node url, issue one
`mget` per node, tag each answer with its recorded position, and sort the
tagged answers back into the caller's key order. -/
def getManyWith {B γ : Type} (keyToUrl : String → String) (kp : String)
    (post : Option B → γ) (keys : List String)
    (store : String → String → Option B) : List γ :=
  let urlDict := groupByUrl keys (fun x => getKey kp x) (fun x => keyToUrl (getKey kp x))
  let results := (urlDict.map (fun ul =>
      (ul.2.map Prod.fst).zip (((ul.2.map Prod.snd).map (store ul.1)).map post))).flatten
  (List.insertionSort (fun a b => a.1 ≤ b.1) results).map Prod.snd

/-- `RedisCache.get_many` on the default (`raw=False`) path: every `mget`
answer goes through `load_object`. -/
def getMany {B : Type} (keyToUrl : String → String) (kp : String) (loads : B → PyVal)
    (keys : List String) (store : String → String → Option B) : List (Option PyVal) :=
  getManyWith keyToUrl kp (loadObject loads) keys store

/-- A value of `CACHE_NODES[name]`: either a bare backend-kind string, or
a Python list/tuple whose index 0 is the backend kind and index 1 the
node list (`QKCache.get_cache` reads `cfg[0]` and `cfg[1]`). -/
inductive NodeCfg : Type where
  | bare (backend : String)
  | withNodes (backend : String) (nodes : List String)
  deriving DecidableEq

/-- The manager's configuration map (`QKCache._config`) restricted to its
four recognized keys. -/
structure CacheConfig : Type where
  enabled : Bool
  keyPfx : String
  defaultTimeout : Int
  nodes : List (String × NodeCfg)
  deriving DecidableEq

/-- What a built cache instance is: `werkzeug`'s NullCache, or a
`RedisCache` with its constructor arguments. -/
inductive InstKind : Type where
  | nullCache
  | redisCache (nodes : List String) (kPfx : String) (dfltTimeout : Int)
  deriving DecidableEq

/-- A built instance.  `id` is an allocation counter standing for Python
object identity: two builds never share an id. -/
structure Inst : Type where
  id : Nat
  kind : InstKind
  deriving DecidableEq

/-- `QKCache` state: configuration, the built-instance map of the current
scope (`get_instances()`), and the next allocation id. -/
structure ManagerState : Type where
  config : CacheConfig
  instances : List (String × Inst)
  fresh : Nat
  deriving DecidableEq

/-- The exceptions raised by `cache.py`: `NotImplementedError`
("unsupported cache backend"), `KeyError` on a missing `CACHE_NODES`
entry, and the `RuntimeError` ("unknown cache action") of
`__getattr__`. -/
inductive CacheError : Type where
  | unsupportedBackend (backend : String)
  | missingNamespace (name : String)
  | unknownAction (name : String)
  deriving DecidableEq

/-- Python dict lookup on an insertion-ordered association list. -/
def assocFind {β : Type} : List (String × β) → String → Option β
  | [], _ => none
  | (k, v) :: rest, n => if k = n then some v else assocFind rest n

/-- Backend choice made by `QKCache.get_cache`'s dispatch. -/
inductive BuildResult : Type where
  | redisB
  | nullB
  | unsupportedB
  deriving DecidableEq

/-- Python `str.lower()` on one character, for the ASCII range (the only
case mapping the configuration strings of this repository exercise). -/
def pyCharLower (c : Char) : Char :=
  if 65 ≤ c.toNat ∧ c.toNat ≤ 90 then Char.ofNat (c.toNat + 32) else c

/-- Python `str.lower()` (ASCII case mapping). -/
def pyLower (s : String) : String := ⟨s.data.map pyCharLower⟩

/-- `QKCache._check_backend`: accept exactly the strings whose lowercase
form is "redis" or "null"; anything else raises NotImplementedError. -/
def checkBackend (backend : String) : Bool :=
  pyLower backend == "redis" || pyLower backend == "null"

/-- The backend dispatch of `QKCache.get_cache`: `_check_backend` first,
then the `== 'redis'` / `== 'memcached'` / else chain.  Both raise sites
carry the same "unsupported cache backend" error. -/
def buildBackend (backend : String) : BuildResult :=
  if ¬ checkBackend backend then .unsupportedB
  else if backend = "redis" then .redisB
  else if backend = "memcached" then .unsupportedB
  else .nullB

/-- `cfg[0]` of a backend spec: the backend-kind string (a bare spec is
the backend string itself). -/
def cfgBackend : NodeCfg → String
  | .bare b => b
  | .withNodes b _ => b

/-- `cfg[1]` of a backend spec: the node list (empty for a bare spec). -/
def cfgNodes : NodeCfg → List String
  | .bare _ => []
  | .withNodes _ ns => ns

/-- `QKCache.get_cache`: return the already-built instance if the name is
present; otherwise build a NullCache when caching is disabled, else look
the name up in `CACHE_NODES`, split the spec into backend kind and node
list, and dispatch on the backend kind.  A newly built instance is stored
under the name before being returned. -/
def getCache (s : ManagerState) (name : String) : Except CacheError (Inst × ManagerState) :=
  match assocFind s.instances name with
  | some inst => .ok (inst, s)
  | none =>
    if s.config.enabled = false then
      let inst : Inst := ⟨s.fresh, .nullCache⟩
      .ok (inst, { s with instances := s.instances ++ [(name, inst)], fresh := s.fresh + 1 })
    else
      match assocFind s.config.nodes name with
      | none => .error (.missingNamespace name)
      | some cfg =>
        match buildBackend (cfgBackend cfg) with
        | .unsupportedB => .error (.unsupportedBackend (cfgBackend cfg))
        | .redisB =>
          let inst : Inst :=
            ⟨s.fresh, .redisCache (cfgNodes cfg) s.config.keyPfx s.config.defaultTimeout⟩
          .ok (inst, { s with instances := s.instances ++ [(name, inst)], fresh := s.fresh + 1 })
        | .nullB =>
          let inst : Inst := ⟨s.fresh, .nullCache⟩
          .ok (inst, { s with instances := s.instances ++ [(name, inst)], fresh := s.fresh + 1 })

/-- `QKCache.reset`: call `reset()` on every built instance (recorded
here as the list of reset instance ids, in map order), then clear the
map. -/
def resetState (s : ManagerState) : ManagerState × List Nat :=
  ({ s with instances := [] }, s.instances.map (fun p => p.2.id))

/-- The verb whitelist of `QKCache.__getattr__`, in source order. -/
def knownCacheActions : List String :=
  ["add", "set", "get", "delete", "set_many", "get_many", "delete_many", "inc", "dec", "clear"]

/-- Public attributes defined on `QKCache` itself; Python resolves these
normally, so `__getattr__` never fires for them. -/
def qkCacheAttrs : List String :=
  ["get_instances", "config", "configure", "get_cache", "reset"]

/-- Public methods defined on `RedisCache` in `redis_cache.py`. -/
def redisCacheMethods : List String :=
  ["reset", "exists", "get", "set", "add", "get_many", "set_many", "delete",
   "delete_many", "clear", "inc", "dec"]

/-- The spec's public verb set, stated from the spec's words ("exists,
get, set, add, delete, get_many, set_many, delete_many, increment,
decrement, clear") for comparison with the code's whitelist. -/
def specPublicVerbSet : List String :=
  ["exists", "get", "set", "add", "delete", "get_many", "set_many", "delete_many",
   "increment", "decrement", "clear"]

/-- What attribute access on the manager resolves to. -/
inductive AttrTarget : Type where
  | builtin (name : String)
  | bound (inst : Inst) (meth : String)
  deriving DecidableEq

/-- Attribute access on the manager: ordinary attributes resolve normally
(Python calls `__getattr__` only for missing attributes); otherwise
`QKCache.__getattr__` checks its verb whitelist and either delegates to
the default-named instance (built via `get_cache()`) or raises the
unknown-action error. -/
def managerAttr (s : ManagerState) (name : String) :
    Except CacheError (AttrTarget × ManagerState) :=
  if name ∈ qkCacheAttrs then .ok (.builtin name, s)
  else if name ∈ knownCacheActions then
    match getCache s "default" with
    | .error e => .error e
    | .ok (inst, s') => .ok (.bound inst name, s')
  else .error (.unknownAction name)

/-- An enabled manager whose default namespace names the unrecognized
backend kind "mongo". -/
def c2State : ManagerState :=
  ⟨⟨true, "qianka", 300, [("default", .bare "mongo")]⟩, [], 0⟩

/-- An enabled manager with a default redis namespace, before any build. -/
def c5State : ManagerState :=
  ⟨⟨true, "q", 300, [("default", .withNodes "redis" ["redis://127.0.0.1"])]⟩, [], 0⟩

/-- The instance `c5State` builds for "default". -/
def c5Inst : Inst := ⟨0, .redisCache ["redis://127.0.0.1"] "q" 300⟩

/-- `c5State` after that first build. -/
def c5Built : ManagerState :=
  ⟨⟨true, "q", 300, [("default", .withNodes "redis" ["redis://127.0.0.1"])]⟩,
   [("default", c5Inst)], 1⟩

/-- An enabled manager with a default redis namespace (as the tests
configure it), before any build. -/
def c3State : ManagerState :=
  ⟨⟨true, "qianka", 300, [("default", .withNodes "redis" ["redis://127.0.0.1"])]⟩, [], 0⟩

/-- The instance `c3State` builds for "default". -/
def c3Inst : Inst := ⟨0, .redisCache ["redis://127.0.0.1"] "qianka" 300⟩

/-- `c3State` after that first build. -/
def c3Built : ManagerState :=
  ⟨⟨true, "qianka", 300, [("default", .withNodes "redis" ["redis://127.0.0.1"])]⟩,
   [("default", c3Inst)], 1⟩

/-- Modelled from the spec: `NullCache.set` (werkzeug code, external to
src/) — with caching disabled, writes report failure/no-effect. -/
def nullCacheSet (_key : String) (_value : PyVal) (_timeout : Option Int) : Bool := false

/-- Modelled from the spec: `NullCache.get` (werkzeug code, external to
src/) — reads return the null sentinel. -/
def nullCacheGet (_key : String) : Option PyVal := none

/-- Modelled from the spec: `NullCache.get_many` (werkzeug code, external
to src/) — one null sentinel per requested key. -/
def nullCacheGetMany (keys : List String) : List (Option PyVal) :=
  keys.map (fun _ => none)

/-- A disabled manager whose configuration still names a redis node set. -/
def c9State : ManagerState :=
  ⟨⟨false, "qianka", 300, [("default", .withNodes "redis" ["redis://127.0.0.1"])]⟩, [], 0⟩

/-- `RedisCache._get_expiration`: `None` becomes the configured default,
then `0` becomes the never-expire sentinel `-1`. -/
def getExpiration (timeout : Option Int) (dflt : Int) : Int :=
  let t := timeout.getD dflt
  if t = 0 then -1 else t

/-- The redis commands the cache layer issues on a single client. -/
inductive RedisCmd (B : Type) : Type where
  | setC (key : String) (value : B)
  | setexC (key : String) (ttl : Int) (value : B)
  | setnxC (key : String) (value : B)
  | expireC (key : String) (ttl : Int)
  | incrbyC (key : String) (delta : Int)
  | decrbyC (key : String) (delta : Int)
  | delC (key : String)
  deriving DecidableEq

/-- `RedisCache.set` with the already-serialized payload (`dump_object
value` on the default path, the raw value when `raw=True`): the routed
node url and the single command issued — a plain SET when the normalized
timeout is the never-expire sentinel, a SETEX otherwise. -/
def setCmd {B : Type} (keyToUrl : String → String) (kp : String) (dflt : Int)
    (key : String) (dump : B) (timeout : Option Int) : String × RedisCmd B :=
  let t := getExpiration timeout dflt
  let k := getKey kp key
  (keyToUrl k, if t = -1 then .setC k dump else .setexC k t dump)

/-- `RedisCache.inc`: the routed node url and the two commands issued —
INCRBY, then EXPIRE with the normalized timeout (whatever its value). -/
def incCmds {B : Type} (keyToUrl : String → String) (kp : String) (dflt : Int)
    (key : String) (delta : Int) (timeout : Option Int) : List (String × RedisCmd B) :=
  let t := getExpiration timeout dflt
  let k := getKey kp key
  [(keyToUrl k, .incrbyC k delta), (keyToUrl k, .expireC k t)]

/-- `RedisCache.dec`: DECRBY, then EXPIRE with the normalized timeout. -/
def decCmds {B : Type} (keyToUrl : String → String) (kp : String) (dflt : Int)
    (key : String) (delta : Int) (timeout : Option Int) : List (String × RedisCmd B) :=
  let t := getExpiration timeout dflt
  let k := getKey kp key
  [(keyToUrl k, .decrbyC k delta), (keyToUrl k, .expireC k t)]

/-- What `RedisCache.set_many` issues on one node: a single multi-key
MSET, or a non-transactional pipeline of per-item SETEX commands. -/
inductive NodeBatch (B : Type) : Type where
  | msetB (kvs : List (String × B))
  | pipeSetexB (items : List (String × Int × B))
  deriving DecidableEq

/-- The key/value pairs a node batch writes. -/
def batchKVs {B : Type} : NodeBatch B → List (String × B)
  | .msetB kvs => kvs
  | .pipeSetexB its => its.map (fun it => (it.1, it.2.2))

/-- The `_group_by_url` call of `RedisCache.set_many`: the mapping's
items, each turned into `(physical key, encoded value)` and grouped by
the url its physical key hashes to.  `encode` is `dump_object` on the
default path and the identity for `raw=True`. -/
def setManyGroups {V B : Type} (keyToUrl : String → String) (kp : String)
    (encode : V → B) (mapping : List (String × V)) :
    List (String × List (Nat × (String × B))) :=
  groupByUrl mapping (fun x => (getKey kp x.1, encode x.2))
    (fun x => keyToUrl (getKey kp x.1))

/-- `RedisCache.set_many`, per-node command batches: one MSET of the
node's pairs when the normalized timeout is the never-expire sentinel,
otherwise one pipelined SETEX per pair carrying the normalized timeout. -/
def setManyBatches {V B : Type} (keyToUrl : String → String) (kp : String)
    (encode : V → B) (dflt : Int) (mapping : List (String × V))
    (timeout : Option Int) : List (String × NodeBatch B) :=
  let t := getExpiration timeout dflt
  (setManyGroups keyToUrl kp encode mapping).map (fun ul =>
    (ul.1, if t = -1 then NodeBatch.msetB (ul.2.map Prod.snd)
           else NodeBatch.pipeSetexB ((ul.2.map Prod.snd).map (fun kv => (kv.1, t, kv.2)))))

/-- The per-command backend answers `set_many` collects (`client.mset`
returns one answer, `pipe.execute()` one answer per pipelined SETEX). -/
def setManyResponses {V B : Type} (keyToUrl : String → String) (kp : String)
    (encode : V → B) (dflt : Int) (mapping : List (String × V)) (timeout : Option Int)
    (respMset : String → List (String × B) → PyVal)
    (respSetex : String → String → Int → B → PyVal) : List PyVal :=
  ((setManyBatches keyToUrl kp encode dflt mapping timeout).map (fun ub =>
    match ub.2 with
    | .msetB kvs => [respMset ub.1 kvs]
    | .pipeSetexB its => its.map (fun it => respSetex ub.1 it.1 it.2.1 it.2.2))).flatten

/-- `RedisCache.set_many`'s return value:
`all([i is True for i in results])`. -/
def setMany {V B : Type} (keyToUrl : String → String) (kp : String)
    (encode : V → B) (dflt : Int) (mapping : List (String × V)) (timeout : Option Int)
    (respMset : String → List (String × B) → PyVal)
    (respSetex : String → String → Int → B → PyVal) : Bool :=
  (setManyResponses keyToUrl kp encode dflt mapping timeout respMset respSetex).all
    (fun r => r == PyVal.boolV true)

/-- A two-node routing function for concrete checks: "b" hashes to the
second node, everything else to the first. -/
def c7Url (k : String) : String := if k = "b" then "redis://n2" else "redis://n1"

/-- The mapping of the repository's own `test_mset_mget` test. -/
def c7Mapping : List (String × PyVal) :=
  [("a", .intV 123), ("b", .intV 21), ("c", .intV 123)]

/-- The calls `RedisCache.clear` makes on the backing nodes. -/
inductive ClearCmd : Type where
  | keysQ (url pat : String)
  | delQ (url : String) (ks : List String)
  | flushQ (url : String)
  deriving DecidableEq

/-- `RedisCache.clear`, return value: `status` starts as Python `False`
(`none` here) and is reassigned per node — to the node's multi-key DEL
answer when a prefix is configured and the node has matching keys, to the
node's FLUSHDB answer when no prefix is configured — then returned after
the last node. -/
def clearStatus {R : Type} (nodes : List String) (kp : String)
    (keysOf : String → String → List String)
    (delResp : String → List String → R) (flushResp : String → R) : Option R :=
  nodes.foldl (fun st u =>
    if kp ≠ "" then
      if keysOf u (getKey kp "*") ≠ [] then some (delResp u (keysOf u (getKey kp "*"))) else st
    else some (flushResp u)) none

/-- `RedisCache.clear`, commands issued: per node, a KEYS enumeration of
`prefix + "*"` followed by one multi-key DEL when anything matched
(prefix configured), or a bare FLUSHDB (no prefix). -/
def clearTrace (nodes : List String) (kp : String)
    (keysOf : String → String → List String) : List ClearCmd :=
  nodes.foldl (fun tr u =>
    if kp ≠ "" then
      tr ++ (ClearCmd.keysQ u (getKey kp "*")
        :: (if keysOf u (getKey kp "*") ≠ [] then [ClearCmd.delQ u (keysOf u (getKey kp "*"))] else []))
    else tr ++ [ClearCmd.flushQ u]) []

/-- Two concrete nodes: the first holds one key matching the prefix, the
second holds none. -/
def c8Nodes : List String := ["redis://n1", "redis://n2"]

/-- Concrete `client.keys(pattern)` answers per node. -/
def c8KeysOf (u _pat : String) : List String :=
  if u = "redis://n1" then ["pa"] else []

/-- Concrete per-node DEL answers: node one answers 10, node two would
answer 20 (for any key list). -/
def c8DelResp (u : String) (_ks : List String) : Nat :=
  if u = "redis://n1" then 10 else 20

/-- Concrete FLUSHDB answers: every node would answer 30. -/
def c8FlushResp (_u : String) : Nat := 30

/-- `RedisCache.delete`: route the physical key and issue one single-key
DEL on that node, returning the node's answer. -/
def deleteOne {R : Type} (keyToUrl : String → String) (kp : String)
    (delResp : String → String → R) (key : String) : R :=
  delResp (keyToUrl (getKey kp key)) (getKey kp key)

/-- `RedisCache.delete_many`: `return` (None) on an empty key tuple,
otherwise the list of per-key `delete` answers in caller order. -/
def deleteMany {R : Type} (keyToUrl : String → String) (kp : String)
    (delResp : String → String → R) (keys : List String) : Option (List R) :=
  if keys = [] then none
  else some (keys.map (fun k => deleteOne keyToUrl kp delResp k))

/-- The DEL commands `delete_many` issues: none for an empty key tuple,
otherwise one independently routed single-key DEL per key, in order. -/
def deleteManyTrace (keyToUrl : String → String) (kp : String)
    (keys : List String) : List (String × RedisCmd Unit) :=
  if keys = [] then []
  else keys.map (fun k => (keyToUrl (getKey kp k), RedisCmd.delC (getKey kp k)))

lemma foldl_horner (l : List Nat) (a : Nat) :
    l.reverse.foldl (fun x d => x * 10 + d) a = a * 10 ^ l.length + Nat.ofDigits 10 l := by
  induction l generalizing a with
  | nil => simp [Nat.ofDigits]
  | cons d t ih =>
    simp only [List.reverse_cons, List.foldl_append, List.foldl_cons, List.foldl_nil,
      List.length_cons, Nat.ofDigits_cons, ih]
    ring

lemma natDecimalCodes_ne_nil (n : Nat) : natDecimalCodes n ≠ [] := by
  unfold natDecimalCodes
  split
  · simp
  · next hn =>
    have hd : Nat.digits 10 n ≠ [] := (@Nat.digits_ne_nil_iff_ne_zero 10 n).mpr hn
    intro h
    exact hd (by simpa using List.reverse_eq_nil_iff.mp h)

lemma natDecimalCodes_all_digits (n : Nat) :
    (natDecimalCodes n).all isDigitCode = true := by
  unfold natDecimalCodes
  split
  · decide
  · rw [List.all_eq_true]
    intro c hc
    rw [List.mem_reverse, List.mem_map] at hc
    obtain ⟨d, hd, rfl⟩ := hc
    have hlt : d < 10 := Nat.digits_lt_base (by norm_num) hd
    simp [isDigitCode]
    omega

lemma parseNat_natDecimalCodes (n : Nat) :
    parseNatCodes (natDecimalCodes n) = some n := by
  unfold parseNatCodes
  rw [if_pos ⟨natDecimalCodes_ne_nil n, natDecimalCodes_all_digits n⟩]
  unfold natDecimalCodes
  split
  · simp_all
  · rw [← List.map_reverse, List.foldl_map]
    simp only [Nat.add_sub_cancel]
    rw [foldl_horner]
    simp [Nat.ofDigits_digits]

lemma parseIntCodes_cons (c : Nat) (rest : List Nat) :
    parseIntCodes (c :: rest)
      = if c = 45 then (parseNatCodes rest).map (fun m => -(m : Int))
        else if c = 43 then (parseNatCodes rest).map (fun m => (m : Int))
        else (parseNatCodes (c :: rest)).map (fun m => (m : Int)) := rfl

lemma parseInt_intDecimalCodes (n : Int) :
    parseIntCodes (intDecimalCodes n) = some n := by
  unfold intDecimalCodes
  split
  · next hneg =>
    rw [parseIntCodes_cons, if_pos rfl, parseNat_natDecimalCodes]
    show some (-(n.natAbs : Int)) = some n
    exact congrArg some (by omega)
  · next hpos =>
    rcases h : natDecimalCodes n.natAbs with _ | ⟨c, rest⟩
    · exact absurd h (natDecimalCodes_ne_nil _)
    · have hall := natDecimalCodes_all_digits n.natAbs
      rw [h, List.all_cons, Bool.and_eq_true] at hall
      have hc : 48 ≤ c ∧ c ≤ 57 := by
        have := hall.1
        simp [isDigitCode] at this
        omega
      have h45 : c ≠ 45 := by omega
      have h43 : c ≠ 43 := by omega
      have hp : parseNatCodes (c :: rest) = some n.natAbs := by
        rw [← h, parseNat_natDecimalCodes]
      rw [parseIntCodes_cons, if_neg h45, if_neg h43, hp]
      show some ((n.natAbs : Int)) = some n
      exact congrArg some (by omega)

/-- Claim C6: serialization round-trip law.  Assuming the pluggable
codec's `loads` inverts its `dumps`: every value on which Python `int()`
fails (a non-integer-ambiguous value) survives
`load_object (dump_object v)` unchanged, and every int is dumped as the
marshalled ASCII base-10 text of its value and loaded back as that
int. -/
theorem dump_load_round_trip {B : Type} (dumps : PyVal → B) (loads : B → PyVal)
    (hm : ∀ v, loads (dumps v) = v) :
    (∀ v : PyVal, pyToInt v = none →
      loadObject loads (some (dumpObject dumps v)) = some v)
    ∧ (∀ n : Int,
      dumpObject dumps (.intV n) = dumps (.bytesV (intDecimalCodes n))
      ∧ loadObject loads (some (dumpObject dumps (.intV n))) = some (.intV n)) := by
  constructor
  · intro v hv
    cases v with
    | intV n => simp [pyToInt] at hv
    | strV cs => simp [dumpObject, loadObject, hm, hv]
    | bytesV bs => simp [dumpObject, loadObject, hm, hv]
    | boolV b => simp [pyToInt] at hv
    | noneV => simp [dumpObject, loadObject, hm, hv]
  · intro n
    refine ⟨rfl, ?_⟩
    simp [dumpObject, loadObject, hm, pyToInt, parseInt_intDecimalCodes]

/-- Witness for C6: the round-trip law evaluated with the identity codec
on the non-integer string "hi" and on the int `-12`. -/
theorem dump_load_round_trip_witness :
    loadObject (fun v => v) (some (dumpObject (fun v => v) (.strV [104, 105])))
        = some (.strV [104, 105])
    ∧ loadObject (fun v => v) (some (dumpObject (fun v => v) (.intV (-12))))
        = some (.intV (-12)) :=
  ⟨(dump_load_round_trip (fun v => v) (fun v => v) (fun _ => rfl)).1 _ (by decide),
   ((dump_load_round_trip (fun v => v) (fun v => v) (fun _ => rfl)).2 (-12)).2⟩

lemma perm_rotate_singleton {γ : Type} (A E J : List γ) :
    List.Perm ((A ++ E) ++ J) ((A ++ J) ++ E) := by
  rw [List.append_assoc, List.append_assoc]
  exact List.Perm.append_left A List.perm_append_comm

lemma flatten_map_bucketAdd {α γ : Type} (g : String → α → γ)
    (d : List (String × List α)) (u : String) (x : α) :
    List.Perm (((bucketAdd d u x).map (fun ul => ul.2.map (g ul.1))).flatten)
      ((d.map (fun ul => ul.2.map (g ul.1))).flatten ++ [g u x]) := by
  induction d with
  | nil => simp [bucketAdd]
  | cons hd tl ih =>
    obtain ⟨u', xs⟩ := hd
    by_cases hu : u' = u
    · subst hu
      have hb : bucketAdd ((u', xs) :: tl) u' x = (u', xs ++ [x]) :: tl := by
        simp [bucketAdd]
      rw [hb]
      simp only [List.map_cons, List.flatten_cons, List.map_append, List.map_singleton]
      exact perm_rotate_singleton (xs.map (g u')) [g u' x] _
    · simp only [bucketAdd, if_neg hu, List.map_cons, List.flatten_cons]
      refine (List.Perm.append_left (xs.map (g u')) ih).trans ?_
      rw [List.append_assoc]

lemma flatten_map_groupFold {α γ : Type} (g : String → (Nat × α) → γ)
    (items : List (Nat × α × String)) (d : List (String × List (Nat × α))) :
    List.Perm
      (((items.foldl (fun d t => bucketAdd d t.2.2 (t.1, t.2.1)) d).map
        (fun ul => ul.2.map (g ul.1))).flatten)
      ((d.map (fun ul => ul.2.map (g ul.1))).flatten
        ++ items.map (fun t => g t.2.2 (t.1, t.2.1))) := by
  induction items generalizing d with
  | nil => simp
  | cons t ts ih =>
    simp only [List.foldl_cons, List.map_cons]
    refine (ih (bucketAdd d t.2.2 (t.1, t.2.1))).trans ?_
    refine (List.Perm.append_right _ (flatten_map_bucketAdd g d t.2.2 (t.1, t.2.1))).trans ?_
    rw [List.append_assoc, List.singleton_append]

lemma getManyWith_eq_map {B γ : Type} (keyToUrl : String → String) (kp : String)
    (post : Option B → γ) (keys : List String) (store : String → String → Option B) :
    getManyWith keyToUrl kp post keys store
      = keys.map (fun k => post (store (keyToUrl (getKey kp k)) (getKey kp k))) := by
  unfold getManyWith groupByUrl
  set dget := fun k => post (store (keyToUrl (getKey kp k)) (getKey kp k)) with hdget
  set g := fun (u : String) (pk : Nat × String) => (pk.1, post (store u pk.2)) with hg
  have hzip : ∀ (u : String) (l : List (Nat × String)),
      (l.map Prod.fst).zip (((l.map Prod.snd).map (store u)).map post) = l.map (g u) := by
    intro u l
    rw [List.map_map, List.map_map, List.zip_map']
    rfl
  have htarget :
      List.Perm
        (((keys.enum.map (fun pa =>
              (pa.1, getKey kp pa.2, keyToUrl (getKey kp pa.2)))).foldl
            (fun d t => bucketAdd d t.2.2 (t.1, t.2.1)) []).map
          (fun ul => ul.2.map (g ul.1))).flatten
        (keys.enum.map (fun pa => (pa.1, dget pa.2))) := by
    refine (flatten_map_groupFold g _ []).trans ?_
    rw [List.map_map]
    simp only [List.map_nil, List.flatten_nil, List.nil_append]
    exact List.Perm.refl _
  simp only [hzip]
  set results := (((keys.enum.map (fun pa =>
        (pa.1, getKey kp pa.2, keyToUrl (getKey kp pa.2)))).foldl
      (fun d t => bucketAdd d t.2.2 (t.1, t.2.1)) []).map
    (fun ul => ul.2.map (g ul.1))).flatten with hres
  set target := keys.enum.map (fun pa => (pa.1, dget pa.2)) with htgt
  have hperm : List.Perm results target := htarget
  have hsortperm : List.Perm (List.insertionSort (fun a b => a.1 ≤ b.1) results) target :=
    (List.perm_insertionSort _ results).trans hperm
  haveI : IsTotal (Nat × γ) (fun a b => a.1 ≤ b.1) := ⟨fun a b => Nat.le_total a.1 b.1⟩
  haveI : IsTrans (Nat × γ) (fun a b => a.1 ≤ b.1) := ⟨fun _ _ _ h1 h2 => le_trans h1 h2⟩
  have hsorted : (List.insertionSort (fun a b => a.1 ≤ b.1) results).Sorted
      (fun a b => a.1 ≤ b.1) := List.sorted_insertionSort _ results
  have htfst : target.map Prod.fst = List.range keys.length := by
    rw [htgt, List.map_map]
    have : (Prod.fst ∘ fun pa : Nat × String => (pa.1, dget pa.2)) = Prod.fst := rfl
    rw [this, List.enum_map_fst]
  have hnodup : ((List.insertionSort (fun a b => a.1 ≤ b.1) results).map Prod.fst).Nodup := by
    have hmp : List.Perm ((List.insertionSort (fun a b => a.1 ≤ b.1) results).map Prod.fst)
        (target.map Prod.fst) := List.Perm.map Prod.fst hsortperm
    rw [htfst] at hmp
    exact hmp.nodup_iff.mpr (List.nodup_range _)
  have hne : (List.insertionSort (fun a b => a.1 ≤ b.1) results).Pairwise
      (fun a b => a.1 ≠ b.1) := List.pairwise_map.mp hnodup
  have hlt : (List.insertionSort (fun a b => a.1 ≤ b.1) results).Pairwise
      (fun a b => a.1 < b.1) :=
    (hsorted.and hne).imp (fun h => lt_of_le_of_ne h.1 h.2)
  have htlt : target.Pairwise (fun a b => a.1 < b.1) := by
    have := List.sorted_lt_range keys.length
    rw [← htfst] at this
    exact List.pairwise_map.mp this
  haveI : IsAntisymm (Nat × γ) (fun a b => a.1 < b.1) :=
    ⟨fun a b h1 h2 => absurd (Nat.lt_trans h1 h2) (Nat.lt_irrefl _)⟩
  have heq : List.insertionSort (fun a b => a.1 ≤ b.1) results = target :=
    List.eq_of_perm_of_sorted hsortperm hlt htlt
  rw [heq, htgt, List.map_map]
  have : (Prod.snd ∘ fun pa : Nat × String => (pa.1, dget pa.2))
      = fun pa : Nat × String => dget pa.2 := rfl
  rw [this]
  have : (fun pa : Nat × String => dget pa.2) = dget ∘ Prod.snd := rfl
  rw [this, ← List.map_map, List.enum_map_snd]

/-- Claim C1: for every tuple of logical keys (however they are spread
over nodes by `keyToUrl`), `get_many` returns exactly one result per key,
positionally aligned with the caller's input: position `i` holds
`load_object` of the value the routed node stores under the physical form
of key `i`, and `load_object` maps a missing value (`None`) to the `None`
sentinel. -/
theorem get_many_positionally_aligned {B : Type} (keyToUrl : String → String)
    (kp : String) (loads : B → PyVal) (keys : List String)
    (store : String → String → Option B) :
    (getMany keyToUrl kp loads keys store).length = keys.length
    ∧ (∀ i : Nat, (getMany keyToUrl kp loads keys store)[i]?
        = (keys[i]?).map (fun k =>
            loadObject loads (store (keyToUrl (getKey kp k)) (getKey kp k))))
    ∧ loadObject loads (none : Option B) = none := by
  have h := getManyWith_eq_map keyToUrl kp (loadObject loads) keys store
  refine ⟨?_, ?_, rfl⟩
  · rw [getMany, h, List.length_map]
  · intro i
    rw [getMany, h, List.getElem?_map]

lemma checkBackend_iff (b : String) :
    checkBackend b = true ↔ (pyLower b = "redis" ∨ pyLower b = "null") := by
  simp [checkBackend]

/-- Counterexample to claim C2 as stated: "mongo" is an unrecognized
backend-kind string, yet `get_cache` raises the unsupported-backend error
(`_check_backend` rejects every string whose lowercase form is not
"redis"/"null") instead of silently building a NullCache. -/
theorem get_cache_unrecognized_backend_raises :
    getCache c2State "default" = .error (.unsupportedBackend "mongo") := by decide

/-- Claim C2 (amended): with caching enabled, `get_cache` builds the
sharded RedisCache exactly for the string "redis"; it fails fast with the
unsupported-backend error for "memcached" and for every other string
whose lowercase form is neither "redis" nor "null"; it silently builds a
NullCache only for the remaining strings — those lowering to "redis" or
"null" other than exact "redis" (e.g. "null", "NULL", "Redis"). -/
theorem get_cache_backend_dispatch_amended :
    (∀ b : String, buildBackend b
        = if b = "redis" then .redisB
          else if pyLower b = "redis" ∨ pyLower b = "null" then .nullB
          else .unsupportedB)
    ∧ (∀ (kp : String) (dt : Int) (ns : List String) (nm : String),
        getCache ⟨⟨true, kp, dt, [(nm, .withNodes "redis" ns)]⟩, [], 0⟩ nm
          = .ok (⟨0, .redisCache ns kp dt⟩,
              ⟨⟨true, kp, dt, [(nm, .withNodes "redis" ns)]⟩,
               [(nm, ⟨0, .redisCache ns kp dt⟩)], 1⟩))
    ∧ (∀ (kp : String) (dt : Int) (ns : List String) (nm : String),
        getCache ⟨⟨true, kp, dt, [(nm, .withNodes "memcached" ns)]⟩, [], 0⟩ nm
          = .error (.unsupportedBackend "memcached"))
    ∧ (∀ (kp : String) (dt : Int) (ns : List String) (nm b : String),
        pyLower b ≠ "redis" → pyLower b ≠ "null" →
        getCache ⟨⟨true, kp, dt, [(nm, .withNodes b ns)]⟩, [], 0⟩ nm
          = .error (.unsupportedBackend b))
    ∧ (∀ (kp : String) (dt : Int) (ns : List String) (nm b : String),
        (pyLower b = "redis" ∨ pyLower b = "null") → b ≠ "redis" →
        getCache ⟨⟨true, kp, dt, [(nm, .withNodes b ns)]⟩, [], 0⟩ nm
          = .ok (⟨0, .nullCache⟩,
              ⟨⟨true, kp, dt, [(nm, .withNodes b ns)]⟩, [(nm, ⟨0, .nullCache⟩)], 1⟩)) := by
  refine ⟨?_, ?_, ?_, ?_, ?_⟩
  · intro b
    by_cases hcb : checkBackend b = true
    · have hor := (checkBackend_iff b).mp hcb
      by_cases hr : b = "redis"
      · subst hr
        rw [if_pos rfl]
        decide
      · have hm : b ≠ "memcached" := by
          rintro rfl
          revert hcb
          decide
        rw [if_neg hr, if_pos hor]
        simp [buildBackend, hcb, hr, hm]
    · have hnor : ¬(pyLower b = "redis" ∨ pyLower b = "null") :=
        fun hh => absurd ((checkBackend_iff b).mpr hh) hcb
      have hr : b ≠ "redis" := by
        rintro rfl
        exact hcb (by decide)
      rw [if_neg hr, if_neg hnor]
      simp only [Bool.not_eq_true] at hcb
      simp [buildBackend, hcb]
  · intro kp dt ns nm
    have hb : buildBackend "redis" = .redisB := by decide
    simp [getCache, assocFind, cfgBackend, cfgNodes, hb]
  · intro kp dt ns nm
    have hb : buildBackend "memcached" = .unsupportedB := by decide
    simp [getCache, assocFind, cfgBackend, cfgNodes, hb]
  · intro kp dt ns nm b h1 h2
    have hb : buildBackend b = .unsupportedB := by
      simp [buildBackend, checkBackend, h1, h2]
    simp [getCache, assocFind, cfgBackend, cfgNodes, hb]
  · intro kp dt ns nm b hor hr
    have hm : b ≠ "memcached" := by
      rintro rfl
      rcases hor with h | h <;> revert h <;> decide
    have hb : buildBackend b = .nullB := by
      have hcb : checkBackend b = true := (checkBackend_iff b).mpr hor
      simp [buildBackend, hcb, hr, hm]
    simp [getCache, assocFind, cfgBackend, cfgNodes, hb]

/-- Witness for the amended C2: the case-variant string "Redis" silently
builds a NullCache, and "foo" is classified unsupported. -/
theorem get_cache_backend_dispatch_amended_witness :
    getCache ⟨⟨true, "q", 300, [("default", NodeCfg.withNodes "Redis" [])]⟩, [], 0⟩ "default"
      = .ok (⟨0, .nullCache⟩,
          ⟨⟨true, "q", 300, [("default", NodeCfg.withNodes "Redis" [])]⟩,
           [("default", ⟨0, .nullCache⟩)], 1⟩)
    ∧ buildBackend "foo" = .unsupportedB :=
  ⟨get_cache_backend_dispatch_amended.2.2.2.2 "q" 300 [] "default" "Redis"
      (Or.inl (by decide)) (by decide),
   (get_cache_backend_dispatch_amended.1 "foo").trans (by decide)⟩

lemma assocFind_append_self {β : Type} (l : List (String × β)) (name : String) (v : β)
    (h : assocFind l name = none) : assocFind (l ++ [(name, v)]) name = some v := by
  induction l with
  | nil => simp [assocFind]
  | cons p rest ih =>
    obtain ⟨k, w⟩ := p
    by_cases hk : k = name
    · simp [assocFind, hk] at h
    · simp only [assocFind, if_neg hk] at h
      simp only [List.cons_append, assocFind, if_neg hk]
      exact ih h

/-- Claim C5: within one scope the manager builds an instance at most
once — if `get_cache` returns `(i1, s1)`, calling it again on `s1` with
the same name returns the identical instance `i1` and leaves the state
untouched; `reset` first invokes `reset()` on every previously built
instance (in map order) and then returns every name to the unbuilt
state. -/
theorem get_cache_build_once_and_reset (s : ManagerState) (name : String)
    (i1 : Inst) (s1 : ManagerState) (h : getCache s name = .ok (i1, s1)) :
    getCache s1 name = .ok (i1, s1)
    ∧ (resetState s1).2 = s1.instances.map (fun p => p.2.id)
    ∧ (resetState s1).1.instances = []
    ∧ assocFind (resetState s1).1.instances name = none := by
  have hfind : assocFind s1.instances name = some i1 := by
    unfold getCache at h
    split at h
    · next i hf =>
      simp only [Except.ok.injEq, Prod.mk.injEq] at h
      obtain ⟨h1, h2⟩ := h
      subst h1
      subst h2
      exact hf
    · next hf =>
      split at h
      · simp only [Except.ok.injEq, Prod.mk.injEq] at h
        obtain ⟨h1, h2⟩ := h
        subst h1
        subst h2
        exact assocFind_append_self _ _ _ hf
      · split at h
        · exact absurd h (by simp)
        · next cfg hn =>
          split at h
          · exact absurd h (by simp)
          · simp only [Except.ok.injEq, Prod.mk.injEq] at h
            obtain ⟨h1, h2⟩ := h
            subst h1
            subst h2
            exact assocFind_append_self _ _ _ hf
          · simp only [Except.ok.injEq, Prod.mk.injEq] at h
            obtain ⟨h1, h2⟩ := h
            subst h1
            subst h2
            exact assocFind_append_self _ _ _ hf
  refine ⟨?_, rfl, rfl, rfl⟩
  unfold getCache
  rw [hfind]

/-- Witness for C5: the build-once/reset law applied to a concrete
enabled manager whose first `get_cache` call built a RedisCache. -/
theorem get_cache_build_once_and_reset_witness :
    getCache c5Built "default" = .ok (c5Inst, c5Built)
    ∧ (resetState c5Built).2 = c5Built.instances.map (fun p => p.2.id)
    ∧ (resetState c5Built).1.instances = []
    ∧ assocFind (resetState c5Built).1.instances "default" = none :=
  get_cache_build_once_and_reset c5State "default" c5Inst c5Built (by decide)

/-- Counterexample to claim C3 as stated: "exists" belongs to the spec's
public verb set, yet attribute access on the manager raises the
unknown-cache-action error — `__getattr__`'s whitelist has no "exists"
(and spells increment/decrement as "inc"/"dec"). -/
theorem manager_attr_exists_raises :
    "exists" ∈ specPublicVerbSet
    ∧ managerAttr c3State "exists" = .error (.unknownAction "exists") :=
  ⟨by decide, by decide⟩

/-- Claim C3 (amended): the verb set recognized by the manager is
`{add, set, get, delete, set_many, get_many, delete_many, inc, dec,
clear}`; each of these names a real `RedisCache` method and attribute
access forwards it to the default-named instance; every name that is
neither an ordinary manager attribute nor in that set — including
"exists", "increment" and "decrement" — raises the unknown-cache-action
error. -/
theorem manager_attr_delegation_amended :
    (∀ name, name ∈ knownCacheActions → name ∈ redisCacheMethods)
    ∧ (∀ (s : ManagerState) (name : String) (i : Inst) (s2 : ManagerState),
        name ∈ knownCacheActions → name ∉ qkCacheAttrs →
        getCache s "default" = .ok (i, s2) →
        managerAttr s name = .ok (.bound i name, s2))
    ∧ (∀ (s : ManagerState) (name : String),
        name ∉ qkCacheAttrs → name ∉ knownCacheActions →
        managerAttr s name = .error (.unknownAction name)) := by
  refine ⟨by decide, ?_, ?_⟩
  · intro s name i s2 hk ha hg
    simp only [managerAttr, if_neg ha, if_pos hk, hg]
  · intro s name ha hk
    simp only [managerAttr, if_neg ha, if_neg hk]

/-- Witness for the amended C3: delegation of "get" on a concrete enabled
manager, and rejection of "increment". -/
theorem manager_attr_delegation_witness :
    managerAttr c3State "get" = .ok (.bound c3Inst "get", c3Built)
    ∧ managerAttr c3State "increment" = .error (.unknownAction "increment") :=
  ⟨manager_attr_delegation_amended.2.1 c3State "get" c3Inst c3Built
      (by decide) (by decide) (by decide),
   manager_attr_delegation_amended.2.2 c3State "increment" (by decide) (by decide)⟩

/-- Counterexample to claim C9 as stated: even with caching disabled,
the spec-verb "exists" raises the unknown-cache-action error at the
facade — `__getattr__` rejects it before any instance is consulted. -/
theorem disabled_manager_exists_raises :
    "exists" ∈ specPublicVerbSet
    ∧ managerAttr c9State "exists" = .error (.unknownAction "exists") :=
  ⟨by decide, by decide⟩

/-- Claim C9 (amended): when CACHE_ENABLED is false the manager builds a
NullCache for every requested name irrespective of the configured
CACHE_NODES; every verb of the delegated set `{add, set, get, delete,
set_many, get_many, delete_many, inc, dec, clear}` resolves without
raising to a method of that NullCache, whose verbs are no-ops (set
reports a false-equivalent, get returns null, get_many returns all-null);
the names "exists", "increment", "decrement" still raise the
unknown-cache-action error regardless of the disabled flag. -/
theorem disabled_manager_noop_amended :
    (∀ (nodes : List (String × NodeCfg)) (nm kp : String) (dt : Int),
        getCache ⟨⟨false, kp, dt, nodes⟩, [], 0⟩ nm
          = .ok (⟨0, .nullCache⟩, ⟨⟨false, kp, dt, nodes⟩, [(nm, ⟨0, .nullCache⟩)], 1⟩))
    ∧ (∀ (nodes : List (String × NodeCfg)) (kp : String) (dt : Int) (verb : String),
        verb ∈ knownCacheActions →
        managerAttr ⟨⟨false, kp, dt, nodes⟩, [], 0⟩ verb
          = .ok (.bound ⟨0, .nullCache⟩ verb,
              ⟨⟨false, kp, dt, nodes⟩, [("default", ⟨0, .nullCache⟩)], 1⟩))
    ∧ (∀ (k : String) (v : PyVal) (t : Option Int), nullCacheSet k v t = false)
    ∧ (∀ k : String, nullCacheGet k = none)
    ∧ (∀ ks : List String, nullCacheGetMany ks = ks.map (fun _ => none)) := by
  have hget : ∀ (nodes : List (String × NodeCfg)) (nm kp : String) (dt : Int),
      getCache ⟨⟨false, kp, dt, nodes⟩, [], 0⟩ nm
        = .ok (⟨0, .nullCache⟩, ⟨⟨false, kp, dt, nodes⟩, [(nm, ⟨0, .nullCache⟩)], 1⟩) := by
    intro nodes nm kp dt
    simp [getCache, assocFind]
  refine ⟨hget, ?_, fun _ _ _ => rfl, fun _ => rfl, fun _ => rfl⟩
  intro nodes kp dt verb hk
  have ha : verb ∉ qkCacheAttrs := by
    have hall : ∀ v ∈ knownCacheActions, v ∉ qkCacheAttrs := by decide
    exact hall verb hk
  simp only [managerAttr, if_neg ha, if_pos hk, hget nodes "default" kp dt]

/-- Witness for the amended C9: the delegated verb "set" on a concrete
disabled manager resolves to the NullCache without raising. -/
theorem disabled_manager_noop_witness :
    managerAttr c9State "set"
      = .ok (.bound ⟨0, .nullCache⟩ "set",
          ⟨⟨false, "qianka", 300, [("default", .withNodes "redis" ["redis://127.0.0.1"])]⟩,
           [("default", ⟨0, .nullCache⟩)], 1⟩)
    ∧ nullCacheSet "k" (.intV 1) (some 3) = false :=
  ⟨disabled_manager_noop_amended.2.1 _ "qianka" 300 "set" (by decide),
   disabled_manager_noop_amended.2.2.1 "k" (.intV 1) (some 3)⟩

/-- Claim C4 (code bug): the normalization itself is as claimed —
`None` becomes the default, `0` becomes the never-expire sentinel, and
`set` turns the sentinel into a plain SET (positive timeouts into a
SETEX) — but `inc` (like `dec` and `add`) passes the sentinel straight to
EXPIRE, issuing the negative expiry `EXPIRE key -1`, which is not the
backing store's persist-forever call (redis deletes the key). -/
theorem inc_timeout_zero_issues_negative_expire :
    getExpiration (some 0) 300 = -1
    ∧ getExpiration none 300 = 300
    ∧ getExpiration (some 7) 300 = 7
    ∧ setCmd (fun _ => "redis://127.0.0.1") "qianka" 300 "counter" PyVal.noneV (some 0)
        = ("redis://127.0.0.1", .setC "qiankacounter" PyVal.noneV)
    ∧ setCmd (fun _ => "redis://127.0.0.1") "qianka" 300 "counter" PyVal.noneV (some 7)
        = ("redis://127.0.0.1", .setexC "qiankacounter" 7 PyVal.noneV)
    ∧ incCmds (fun _ => "redis://127.0.0.1") "qianka" 300 "counter" 1 (some 0)
        = ([("redis://127.0.0.1", .incrbyC "qiankacounter" 1),
            ("redis://127.0.0.1", .expireC "qiankacounter" (-1))] : List (String × RedisCmd PyVal))
    ∧ decCmds (fun _ => "redis://127.0.0.1") "qianka" 300 "counter" 1 (some 0)
        = ([("redis://127.0.0.1", .decrbyC "qiankacounter" 1),
            ("redis://127.0.0.1", .expireC "qiankacounter" (-1))] : List (String × RedisCmd PyVal))
    ∧ (-1 : Int) < 0 := by
  refine ⟨rfl, rfl, rfl, ?_, ?_, rfl, rfl, by decide⟩
  · decide
  · decide

lemma bucketAdd_mem {α : Type} (R : String → α → Prop)
    (d : List (String × List α)) (u : String) (x : α)
    (hd : ∀ p ∈ d, ∀ y ∈ p.2, R p.1 y) (hx : R u x) :
    ∀ p ∈ bucketAdd d u x, ∀ y ∈ p.2, R p.1 y := by
  induction d with
  | nil =>
    intro p hp y hy
    simp only [bucketAdd, List.mem_singleton] at hp
    subst hp
    simp only [List.mem_singleton] at hy
    subst hy
    exact hx
  | cons q rest ih =>
    obtain ⟨u', xs⟩ := q
    intro p hp y hy
    by_cases hu : u' = u
    · simp only [bucketAdd, if_pos hu, List.mem_cons] at hp
      rcases hp with rfl | hp
      · rcases List.mem_append.mp hy with hyy | hyy
        · exact hd (u', xs) (List.mem_cons_self _ _) y hyy
        · rw [List.mem_singleton] at hyy
          subst hyy
          rw [hu]
          exact hx
      · exact hd p (List.mem_cons_of_mem _ hp) y hy
    · simp only [bucketAdd, if_neg hu, List.mem_cons] at hp
      rcases hp with rfl | hp
      · exact hd (u', xs) (List.mem_cons_self _ _) y hy
      · exact ih (fun q hq => hd q (List.mem_cons_of_mem _ hq)) p hp y hy

lemma groupFold_mem {α : Type} (R : String → (Nat × α) → Prop)
    (items : List (Nat × α × String)) (d : List (String × List (Nat × α)))
    (hd : ∀ p ∈ d, ∀ y ∈ p.2, R p.1 y)
    (hi : ∀ t ∈ items, R t.2.2 (t.1, t.2.1)) :
    ∀ p ∈ items.foldl (fun d t => bucketAdd d t.2.2 (t.1, t.2.1)) d, ∀ y ∈ p.2, R p.1 y := by
  induction items generalizing d with
  | nil => exact hd
  | cons t ts ih =>
    simp only [List.foldl_cons]
    exact ih (bucketAdd d t.2.2 (t.1, t.2.1))
      (bucketAdd_mem R d t.2.2 (t.1, t.2.1) hd (hi t (List.mem_cons_self _ _)))
      (fun t' ht' => hi t' (List.mem_cons_of_mem _ ht'))

lemma batchKVs_ite {B : Type} (t : Int) (l : List (Nat × (String × B))) :
    batchKVs (if t = -1 then NodeBatch.msetB (l.map Prod.snd)
        else NodeBatch.pipeSetexB ((l.map Prod.snd).map (fun kv => (kv.1, t, kv.2))))
      = l.map Prod.snd := by
  by_cases h : t = -1
  · simp [batchKVs, h]
  · simp [batchKVs, h, List.map_map]

/-- Claim C7: `set_many` groups the mapping's entries by target node
(every batch's pairs are exactly the mapping's processed pairs, each in
the batch of the node its physical key routes to); per node it issues a
single MSET when the normalized timeout is the never-expire sentinel and
otherwise one pipelined SETEX per entry carrying that timeout; and it
returns true exactly when every collected per-node answer `is True`. -/
theorem set_many_grouping_and_result {V B : Type} (keyToUrl : String → String)
    (kp : String) (encode : V → B) (dflt : Int) (mapping : List (String × V))
    (timeout : Option Int) (respMset : String → List (String × B) → PyVal)
    (respSetex : String → String → Int → B → PyVal) :
    List.Perm
      (((setManyBatches keyToUrl kp encode dflt mapping timeout).map
        (fun ub => batchKVs ub.2)).flatten)
      (mapping.map (fun kv => (getKey kp kv.1, encode kv.2)))
    ∧ (∀ ub ∈ setManyBatches keyToUrl kp encode dflt mapping timeout,
        ∀ kv ∈ batchKVs ub.2, keyToUrl kv.1 = ub.1)
    ∧ (getExpiration timeout dflt = -1 →
        ∀ ub ∈ setManyBatches keyToUrl kp encode dflt mapping timeout,
        ub.2 = NodeBatch.msetB (batchKVs ub.2))
    ∧ (getExpiration timeout dflt ≠ -1 →
        ∀ ub ∈ setManyBatches keyToUrl kp encode dflt mapping timeout,
        ub.2 = NodeBatch.pipeSetexB ((batchKVs ub.2).map
          (fun kv => (kv.1, getExpiration timeout dflt, kv.2))))
    ∧ (setMany keyToUrl kp encode dflt mapping timeout respMset respSetex = true
        ↔ ∀ r ∈ setManyResponses keyToUrl kp encode dflt mapping timeout respMset respSetex,
            r = PyVal.boolV true) := by
  refine ⟨?_, ?_, ?_, ?_, ?_⟩
  · unfold setManyBatches setManyGroups groupByUrl
    rw [List.map_map]
    rw [show ((fun ub : String × NodeBatch B => batchKVs ub.2) ∘ fun ul =>
        (ul.1, if getExpiration timeout dflt = -1
          then NodeBatch.msetB (ul.2.map Prod.snd)
          else NodeBatch.pipeSetexB
            ((ul.2.map Prod.snd).map
              (fun kv => (kv.1, getExpiration timeout dflt, kv.2)))))
        = fun ul : String × List (Nat × (String × B)) => ul.2.map Prod.snd from by
      funext ul
      exact batchKVs_ite _ _]
    refine (flatten_map_groupFold (fun _ pk => pk.2) _ []).trans ?_
    simp only [List.map_nil, List.flatten_nil, List.nil_append, List.map_map]
    have : ((fun t : Nat × (String × B) × String => t.2.1) ∘ fun pa : Nat × (String × V) =>
        (pa.1, (getKey kp pa.2.1, encode pa.2.2), keyToUrl (getKey kp pa.2.1)))
        = (fun kv : String × V => (getKey kp kv.1, encode kv.2)) ∘ Prod.snd := rfl
    rw [this, ← List.map_map, List.enum_map_snd]
  · intro ub hub kv hkv
    unfold setManyBatches setManyGroups groupByUrl at hub
    rw [List.mem_map] at hub
    obtain ⟨ul, hul, rfl⟩ := hub
    rw [batchKVs_ite] at hkv
    rw [List.mem_map] at hkv
    obtain ⟨pk, hpk, rfl⟩ := hkv
    exact groupFold_mem (fun u pk => keyToUrl pk.2.1 = u) _ []
      (by intro p hp; simp at hp)
      (by
        intro t ht
        rw [List.mem_map] at ht
        obtain ⟨pa, _, rfl⟩ := ht
        rfl)
      ul hul pk hpk
  · intro ht ub hub
    unfold setManyBatches setManyGroups groupByUrl at hub
    rw [List.mem_map] at hub
    obtain ⟨ul, hul, rfl⟩ := hub
    simp [batchKVs, ht]
  · intro ht ub hub
    unfold setManyBatches setManyGroups groupByUrl at hub
    rw [List.mem_map] at hub
    obtain ⟨ul, hul, rfl⟩ := hub
    simp [batchKVs, ht, List.map_map]
  · simp only [setMany, List.all_eq_true, beq_iff_eq]

/-- Witness for C7: on the test mapping with a never-expire timeout, the
entries grouped onto node one route there, and with all-True backend
answers `set_many` returns true. -/
theorem set_many_grouping_and_result_witness :
    c7Url "a" = "redis://n1"
    ∧ setMany c7Url "" (fun v : PyVal => v) 300 c7Mapping (some 0)
        (fun _ _ => PyVal.boolV true) (fun _ _ _ _ => PyVal.boolV true) = true :=
  ⟨(set_many_grouping_and_result c7Url "" (fun v : PyVal => v) 300 c7Mapping (some 0)
      (fun _ _ => PyVal.boolV true) (fun _ _ _ _ => PyVal.boolV true)).2.1
      ("redis://n1", NodeBatch.msetB [("a", PyVal.intV 123), ("c", PyVal.intV 123)])
      (by decide) ("a", PyVal.intV 123) (by decide),
   (set_many_grouping_and_result c7Url "" (fun v : PyVal => v) 300 c7Mapping (some 0)
      (fun _ _ => PyVal.boolV true) (fun _ _ _ _ => PyVal.boolV true)).2.2.2.2.mpr
      (by decide)⟩

lemma foldl_append_eq_flatten {α γ : Type} (f : α → List γ) (l : List α) (init : List γ) :
    l.foldl (fun tr u => tr ++ f u) init = init ++ (l.map f).flatten := by
  induction l generalizing init with
  | nil => simp
  | cons a t ih =>
    simp only [List.foldl_cons, List.map_cons, List.flatten_cons, ih, List.append_assoc]

lemma foldl_overwrite_getLastD {R U : Type} (p : U → Prop) [DecidablePred p] (f : U → R)
    (l : List U) (init : Option R) :
    l.foldl (fun st u => if p u then some (f u) else st) init
      = ((l.filter (fun u => decide (p u))).map (fun u => some (f u))).getLastD init := by
  induction l generalizing init with
  | nil => simp
  | cons a t ih =>
    by_cases hp : p a
    · rw [List.foldl_cons, if_pos hp, ih, List.filter_cons, if_pos (decide_eq_true hp),
        List.map_cons, List.getLastD_cons]
    · rw [List.foldl_cons, if_neg hp, ih, List.filter_cons, if_neg (by simp [hp])]

lemma flatten_map_singleton {α γ : Type} (f : α → γ) (l : List α) :
    (l.map (fun a => [f a])).flatten = l.map f := by
  induction l with
  | nil => rfl
  | cons a t ih => simp [ih]

lemma foldl_some_getLastD {R U : Type} (f : U → R) (l : List U) (init : Option R) :
    l.foldl (fun _ u => some (f u)) init = (l.map (fun u => some (f u))).getLastD init := by
  induction l generalizing init with
  | nil => rfl
  | cons a t ih => simp only [List.foldl_cons, List.map_cons, List.getLastD_cons, ih]

/-- Counterexample to claim C8 as stated: with prefix "p", the last node
processed ("redis://n2") has no matching keys, so `status` is never
reassigned for it and `clear` returns 10 — the DEL answer of the FIRST
node — although every answer the last node could produce is 20 (DEL) or
30 (FLUSHDB). -/
theorem clear_returns_earlier_node_result :
    clearStatus c8Nodes "p" c8KeysOf c8DelResp c8FlushResp = some 10
    ∧ c8DelResp "redis://n1" ["pa"] = 10
    ∧ c8DelResp "redis://n2" [] = 20
    ∧ c8FlushResp "redis://n2" = 30
    ∧ (10 : Nat) ≠ 20
    ∧ (10 : Nat) ≠ 30 := by
  refine ⟨by decide, rfl, rfl, rfl, by decide, by decide⟩

/-- Claim C8 (amended): with a configured key prefix, `clear` enumerates
`prefix + "*"` on every node and issues one multi-key DEL per node with
matches, returning the DEL answer of the last node that had matching
keys (False when none did) — a node without matches leaves the running
status untouched, so the return value is not necessarily from the last
node processed; with no prefix it flushes every node's key space and
returns the last node's FLUSHDB answer.  In neither case is the result
an aggregate over nodes. -/
theorem clear_characterization_amended {R : Type} (nodes : List String) (kp : String)
    (keysOf : String → String → List String) (delResp : String → List String → R)
    (flushResp : String → R) :
    (kp = "" →
      clearTrace nodes kp keysOf = nodes.map ClearCmd.flushQ
      ∧ clearStatus nodes kp keysOf delResp flushResp
          = (nodes.map (fun u => some (flushResp u))).getLastD none)
    ∧ (kp ≠ "" →
      clearTrace nodes kp keysOf
        = (nodes.map (fun u =>
            ClearCmd.keysQ u (getKey kp "*")
              :: (if keysOf u (getKey kp "*") ≠ []
                  then [ClearCmd.delQ u (keysOf u (getKey kp "*"))] else []))).flatten
      ∧ clearStatus nodes kp keysOf delResp flushResp
          = ((nodes.filter (fun u => decide (keysOf u (getKey kp "*") ≠ []))).map
              (fun u => some (delResp u (keysOf u (getKey kp "*"))))).getLastD none) := by
  constructor
  · intro h
    subst h
    constructor
    · unfold clearTrace
      rw [show (fun (tr : List ClearCmd) (u : String) =>
          if ("" : String) ≠ "" then
            tr ++ (ClearCmd.keysQ u (getKey "" "*")
              :: (if keysOf u (getKey "" "*") ≠ []
                  then [ClearCmd.delQ u (keysOf u (getKey "" "*"))] else []))
          else tr ++ [ClearCmd.flushQ u])
          = fun (tr : List ClearCmd) (u : String) => tr ++ [ClearCmd.flushQ u] from by
        funext tr u
        rw [if_neg (by simp)]]
      rw [foldl_append_eq_flatten, flatten_map_singleton]
      rfl
    · unfold clearStatus
      rw [show (fun (st : Option R) (u : String) =>
          if ("" : String) ≠ "" then
            if keysOf u (getKey "" "*") ≠ []
            then some (delResp u (keysOf u (getKey "" "*"))) else st
          else some (flushResp u))
          = fun (st : Option R) (u : String) => some (flushResp u) from by
        funext st u
        rw [if_neg (by simp)]]
      rw [foldl_some_getLastD]
  · intro h
    constructor
    · unfold clearTrace
      rw [show (fun (tr : List ClearCmd) (u : String) =>
          if kp ≠ "" then
            tr ++ (ClearCmd.keysQ u (getKey kp "*")
              :: (if keysOf u (getKey kp "*") ≠ []
                  then [ClearCmd.delQ u (keysOf u (getKey kp "*"))] else []))
          else tr ++ [ClearCmd.flushQ u])
          = fun (tr : List ClearCmd) (u : String) =>
            tr ++ (ClearCmd.keysQ u (getKey kp "*")
              :: (if keysOf u (getKey kp "*") ≠ []
                  then [ClearCmd.delQ u (keysOf u (getKey kp "*"))] else [])) from by
        funext tr u
        rw [if_pos h]]
      rw [foldl_append_eq_flatten]
      rfl
    · unfold clearStatus
      rw [show (fun (st : Option R) (u : String) =>
          if kp ≠ "" then
            if keysOf u (getKey kp "*") ≠ []
            then some (delResp u (keysOf u (getKey kp "*"))) else st
          else some (flushResp u))
          = fun (st : Option R) (u : String) =>
            if keysOf u (getKey kp "*") ≠ []
            then some (delResp u (keysOf u (getKey kp "*"))) else st from by
        funext st u
        rw [if_pos h]]
      rw [foldl_overwrite_getLastD (fun u => keysOf u (getKey kp "*") ≠ [])
        (fun u => delResp u (keysOf u (getKey kp "*"))) nodes none]

/-- Witness for the amended C8: the concrete two-node instance — with
prefix "p" node one is enumerated and cleared, node two only enumerated;
with no prefix both nodes are flushed and the last flush answer (30) is
returned. -/
theorem clear_characterization_amended_witness :
    clearTrace c8Nodes "p" c8KeysOf
      = [ClearCmd.keysQ "redis://n1" "p*", ClearCmd.delQ "redis://n1" ["pa"],
         ClearCmd.keysQ "redis://n2" "p*"]
    ∧ clearStatus c8Nodes "" c8KeysOf c8DelResp c8FlushResp = some 30 :=
  ⟨((clear_characterization_amended c8Nodes "p" c8KeysOf c8DelResp c8FlushResp).2
      (by decide)).1.trans (by decide),
   ((clear_characterization_amended c8Nodes "" c8KeysOf c8DelResp c8FlushResp).1
      rfl).2.trans (by decide)⟩

/-- Claim C10: `delete_many` with zero keys returns None (not a list) and
issues no backend operation; with one or more keys it returns the list of
per-key delete answers in the caller's key order, issuing one independent
single-key DEL per key, each routed by its own physical key. -/
theorem delete_many_empty_and_per_key {R : Type} (keyToUrl : String → String)
    (kp : String) (delResp : String → String → R) :
    deleteMany keyToUrl kp delResp [] = none
    ∧ deleteManyTrace keyToUrl kp [] = []
    ∧ (∀ keys : List String, keys ≠ [] →
        deleteMany keyToUrl kp delResp keys
          = some (keys.map (fun k => delResp (keyToUrl (getKey kp k)) (getKey kp k)))
        ∧ deleteManyTrace keyToUrl kp keys
          = keys.map (fun k => (keyToUrl (getKey kp k), RedisCmd.delC (getKey kp k)))
        ∧ (keys.map (fun k => delResp (keyToUrl (getKey kp k)) (getKey kp k))).length
            = keys.length) := by
  refine ⟨rfl, rfl, ?_⟩
  intro keys hne
  refine ⟨?_, ?_, List.length_map _ _⟩
  · rw [deleteMany, if_neg hne]
    rfl
  · rw [deleteManyTrace, if_neg hne]

/-- Witness for C10: two keys on two nodes, with the DEL answer 1 per
key. -/
theorem delete_many_empty_and_per_key_witness :
    deleteMany c7Url "" (fun _ _ => (1 : Nat)) ["a", "b"] = some [1, 1]
    ∧ deleteManyTrace c7Url "" ["a", "b"]
        = [("redis://n1", RedisCmd.delC "a"), ("redis://n2", RedisCmd.delC "b")] :=
  ⟨((delete_many_empty_and_per_key c7Url "" (fun _ _ => (1 : Nat))).2.2 ["a", "b"]
      (by decide)).1.trans (by decide),
   ((delete_many_empty_and_per_key c7Url "" (fun _ _ => (1 : Nat))).2.2 ["a", "b"]
      (by decide)).2.1.trans (by decide)⟩
